import Mathlib

/-!
# Verification of the TennisAI 4-camera viewer core (src/app2.py)

Shallow embedding of the acquisition loop (`VideoWorker.run`/`stop`), the
session controller (`MainWindow.start_streams`/`stop_streams`) with its
routing slots (`on_frame_ready`/`on_worker_error`), and the address
normalisation (`InputDialog.get_urls`), together with theorems settling the
spec's claims about them.
-/

namespace TennisAI

/-- Decoded frames as handed over by the external capture library
(`cv2.VideoCapture.read`).  Their pixel content is opaque to the control
logic verified here (colour conversion and scaling are delegated to
OpenCV/Qt), so a frame is modelled as an opaque token. -/
abbrev Img : Type := Nat

/-- Behaviour of one capture source, as `VideoWorker.run` observes it through
the external interface `cv2.VideoCapture`:

* `addr`  — the string handed to `cv2.VideoCapture(...)` (`self.source`);
* `opens` — the result of `isOpened()` right after construction;
* `frames` — the successive frames returned by `read()` with `ok = True`;
  once they are exhausted every further `read()` returns `ok = False`;
* `fps` — the value of `get(cv2.CAP_PROP_FPS)` (a double in OpenCV,
  modelled as a rational). -/
structure Source where
  addr : String
  opens : Bool
  frames : List Img
  fps : ℚ

/-- One observable action of a `VideoWorker` thread:
`frame` is `self.frame_ready.emit(cam_index, img)`,
`error` is `self.error.emit(cam_index, msg)`,
`sleep` is `self.msleep(ms)`, and
`release` is `self._cap.release()`. -/
inductive Event where
  | frame (slot : Nat) (img : Img)
  | error (slot : Nat) (msg : String)
  | sleep (ms : Nat)
  | release
  deriving DecidableEq, Repr

/-- Error message emitted when `isOpened()` is false (app2.py line 38). -/
def openErrMsg (addr : String) : String :=
  "[X] Cannot open video: " ++ addr

/-- Error message emitted when `read()` fails (app2.py line 44). -/
def readErrMsg (addr : String) : String :=
  "[X] Cannot read frame from: " ++ addr

/-- Pacing after a successful frame (app2.py lines 57–60):
`msleep(int(1000 / fps))` when `fps > 0`, else `msleep(15)`.
Python's `int()` truncates towards zero, which on the positive value
`1000 / fps` coincides with the floor. -/
def pace (fps : ℚ) : Nat :=
  if 0 < fps then (⌊(1000 : ℚ) / fps⌋).toNat else 15

/-- The `while self._running` pull cycle of `VideoWorker.run`
(app2.py lines 41–60), for an execution during which no stop request
arrives: each successful `read()` yields one `frame_ready` emission followed
by the pacing sleep; the first failing `read()` yields one `error` emission
and leaves the loop. -/
def pullLoop (slot : Nat) (addr : String) (fps : ℚ) : List Img → List Event
  | [] => [.error slot (readErrMsg addr)]
  | f :: rest => .frame slot f :: .sleep (pace fps) :: pullLoop slot addr fps rest

/-- The full trace of `VideoWorker.run` (app2.py lines 33–63) on a source,
for an execution with no stop request: on open failure, one `error` emission
and an immediate return (note: no `release`); otherwise the pull cycle
followed by `self._cap.release()`. -/
def run (slot : Nat) (src : Source) : List Event :=
  if src.opens then pullLoop slot src.addr src.fps src.frames ++ [.release]
  else [.error slot (openErrMsg src.addr)]

/-- Whether an event is a `frame_ready` emission. -/
def isFrame : Event → Bool
  | .frame _ _ => true
  | _ => false

/-- Whether an event is an `error` emission. -/
def isError : Event → Bool
  | .error _ _ => true
  | _ => false

/-- Whether an event is a capture-handle release. -/
def isRelease : Event → Bool
  | .release => true
  | _ => false

/-- Number of `frame_ready` emissions in a trace. -/
def countFrames (evs : List Event) : Nat := (evs.filter isFrame).length

/-- Number of `error` emissions in a trace. -/
def countErrors (evs : List Event) : Nat := (evs.filter isError).length

/-- Number of `release` calls in a trace. -/
def countReleases (evs : List Event) : Nat := (evs.filter isRelease).length

lemma pullLoop_eq (slot : Nat) (addr : String) (fps : ℚ) (frames : List Img) :
    pullLoop slot addr fps frames =
      (frames.flatMap fun f => [Event.frame slot f, Event.sleep (pace fps)])
        ++ [Event.error slot (readErrMsg addr)] := by
  induction frames with
  | nil => simp [pullLoop]
  | cons f rest ih => simp [pullLoop, ih]

lemma countFrames_pullLoop (slot : Nat) (addr : String) (fps : ℚ)
    (frames : List Img) :
    countFrames (pullLoop slot addr fps frames) = frames.length := by
  induction frames with
  | nil => simp [pullLoop, countFrames, isFrame]
  | cons f rest ih =>
    simp only [pullLoop, countFrames, List.filter_cons] at ih ⊢
    simp [isFrame, ih]

lemma countErrors_pullLoop (slot : Nat) (addr : String) (fps : ℚ)
    (frames : List Img) :
    countErrors (pullLoop slot addr fps frames) = 1 := by
  induction frames with
  | nil => simp [pullLoop, countErrors, isError]
  | cons f rest ih =>
    simp only [pullLoop, countErrors, List.filter_cons] at ih ⊢
    simp [isError, ih]

lemma countReleases_pullLoop (slot : Nat) (addr : String) (fps : ℚ)
    (frames : List Img) :
    countReleases (pullLoop slot addr fps frames) = 0 := by
  induction frames with
  | nil => simp [pullLoop, countReleases, isRelease]
  | cons f rest ih =>
    simp only [pullLoop, countReleases, List.filter_cons] at ih ⊢
    simp [isRelease, ih]

lemma pullLoop_length (slot : Nat) (addr : String) (fps : ℚ)
    (frames : List Img) :
    (pullLoop slot addr fps frames).length = 2 * frames.length + 1 := by
  induction frames with
  | nil => simp [pullLoop]
  | cons f rest ih => simp [pullLoop, ih]; ring

lemma pullLoop_error_index (slot : Nat) (addr : String) (fps : ℚ)
    (frames : List Img) (j s : Nat) (m : String)
    (h : (pullLoop slot addr fps frames).get? j = some (.error s m)) :
    j = 2 * frames.length := by
  induction frames generalizing j with
  | nil =>
    match j with
    | 0 => rfl
    | j + 1 => simp [pullLoop] at h
  | cons f rest ih =>
    match j with
    | 0 => simp [pullLoop] at h
    | 1 => simp [pullLoop] at h
    | j + 2 =>
      simp only [pullLoop, List.get?_cons_succ] at h
      have := ih j h
      simp only [List.length_cons]
      omega

lemma pullLoop_error_at (slot : Nat) (addr : String) (fps : ℚ)
    (frames : List Img) :
    (pullLoop slot addr fps frames).get? (2 * frames.length) =
      some (.error slot (readErrMsg addr)) := by
  induction frames with
  | nil => rfl
  | cons f rest ih =>
    have h2 : 2 * (f :: rest).length = 2 * rest.length + 2 := by
      simp [List.length_cons]; ring
    rw [h2]
    simpa only [pullLoop, List.get?_cons_succ] using ih

lemma pullLoop_frame_sleep (slot : Nat) (addr : String) (fps : ℚ)
    (frames : List Img) (n s : Nat) (f : Img)
    (h : (pullLoop slot addr fps frames).get? n = some (.frame s f)) :
    (pullLoop slot addr fps frames).get? (n + 1) = some (.sleep (pace fps)) := by
  induction frames generalizing n with
  | nil =>
    match n with
    | 0 => simp [pullLoop] at h
    | n + 1 => simp [pullLoop] at h
  | cons g rest ih =>
    match n with
    | 0 => rfl
    | 1 => simp [pullLoop] at h
    | n + 2 =>
      simp only [pullLoop, List.get?_cons_succ] at h ⊢
      exact ih n h

/-- An element of `l ++ [a]` that is not `a` comes from `l`, at an index
inside `l`. -/
lemma get_append_singleton_ne (l : List Event) (a : Event) (i : Nat)
    (e : Event) (h : (l ++ [a]).get? i = some e) (hne : e ≠ a) :
    i < l.length ∧ l.get? i = some e := by
  rcases Nat.lt_or_ge i l.length with hi | hi
  · exact ⟨hi, by rwa [List.get?_append hi] at h⟩
  · rw [List.get?_append_right hi] at h
    rcases hd : i - l.length with _ | n
    · rw [hd] at h
      simp only [List.get?_cons_zero, Option.some.injEq] at h
      exact absurd h.symm hne
    · rw [hd] at h
      simp at h

section WorkerClaims

/-- C1: a loop that opens successfully and whose `read()` succeeds exactly
N times before failing emits exactly N Frames followed by exactly one
StreamError, then stops without emitting anything further and without any
retry or reconnection attempt (after the error the only remaining action is
the handle release). -/
theorem worker_read_failure_trace (slot : Nat) (src : Source)
    (h : src.opens = true) :
    countFrames (run slot src) = src.frames.length ∧
    countErrors (run slot src) = 1 ∧
    (∀ i j s₁ s₂ f m, (run slot src).get? i = some (.frame s₁ f) →
      (run slot src).get? j = some (.error s₂ m) → i < j) ∧
    (∀ j k s m e, (run slot src).get? j = some (.error s m) → j < k →
      (run slot src).get? k = some e → e = .release) := by
  have hr : run slot src =
      pullLoop slot src.addr src.fps src.frames ++ [.release] := by
    simp [run, h]
  set P := pullLoop slot src.addr src.fps src.frames with hP
  have hlen : P.length = 2 * src.frames.length + 1 := pullLoop_length ..
  refine ⟨?_, ?_, ?_, ?_⟩
  · have h1 := countFrames_pullLoop slot src.addr src.fps src.frames
    simp only [countFrames] at h1 ⊢
    rw [hr]
    simp [List.filter_append, isFrame, h1]
  · have h1 := countErrors_pullLoop slot src.addr src.fps src.frames
    simp only [countErrors] at h1 ⊢
    rw [hr]
    simp [List.filter_append, isError, h1]
  · intro i j s₁ s₂ f m hi hj
    rw [hr] at hi hj
    obtain ⟨hilt, hi'⟩ := get_append_singleton_ne P _ i _ hi (by simp)
    obtain ⟨hjlt, hj'⟩ := get_append_singleton_ne P _ j _ hj (by simp)
    have hj2 : j = 2 * src.frames.length := pullLoop_error_index _ _ _ _ _ _ _ hj'
    have hine : i ≠ 2 * src.frames.length := by
      intro hieq
      rw [hieq, hP] at hi'
      rw [pullLoop_error_at] at hi'
      simp at hi'
    omega
  · intro j k s m e hj hk hke
    rw [hr] at hj hke
    obtain ⟨hjlt, hj'⟩ := get_append_singleton_ne P _ j _ hj (by simp)
    have hj2 : j = 2 * src.frames.length := pullLoop_error_index _ _ _ _ _ _ _ hj'
    have hklt : k < P.length + 1 := by
      have := List.get?_eq_some.mp hke
      simpa using this.1
    have hkeq : k = P.length := by omega
    rw [hkeq, List.get?_append_right (Nat.le_refl _)] at hke
    simp at hke
    exact hke.symm

/-- Witness for C1 at a concrete source: opens, yields two frames, then the
read fails; the trace holds exactly 2 frames and 1 error. -/
theorem worker_read_failure_trace_witness :
    (Source.mk "u" true [5, 6] 30).opens = true ∧
    countFrames (run 0 (Source.mk "u" true [5, 6] 30)) = 2 ∧
    countErrors (run 0 (Source.mk "u" true [5, 6] 30)) = 1 := by
  have h := worker_read_failure_trace 0 (Source.mk "u" true [5, 6] 30) rfl
  exact ⟨rfl, h.1, h.2.1⟩

/-- C5: a loop whose source fails to open emits exactly one StreamError for
its slot, zero Frames, and terminates immediately (its whole trace is that
single emission — no retry). -/
theorem worker_open_failure (slot : Nat) (src : Source)
    (h : src.opens = false) :
    run slot src = [.error slot (openErrMsg src.addr)] ∧
    countFrames (run slot src) = 0 ∧ countErrors (run slot src) = 1 := by
  have hr : run slot src = [.error slot (openErrMsg src.addr)] := by
    simp [run, h]
  refine ⟨hr, ?_, ?_⟩ <;> simp [hr, countFrames, countErrors, isFrame, isError]

/-- Witness for C5 at a concrete source that fails to open. -/
theorem worker_open_failure_witness :
    (Source.mk "cam" false [1, 2] 30).opens = false ∧
    run 3 (Source.mk "cam" false [1, 2] 30) =
      [.error 3 "[X] Cannot open video: cam"] ∧
    countFrames (run 3 (Source.mk "cam" false [1, 2] 30)) = 0 ∧
    countErrors (run 3 (Source.mk "cam" false [1, 2] 30)) = 1 := by
  have h := worker_open_failure 3 (Source.mk "cam" false [1, 2] 30) rfl
  exact ⟨rfl, h.1, h.2.1, h.2.2⟩

lemma pace_pos_bounds (fps : ℚ) (h : 0 < fps) :
    (pace fps : ℚ) ≤ 1000 / fps ∧ 1000 / fps < (pace fps : ℚ) + 1 := by
  unfold pace
  rw [if_pos h]
  have hx : (0 : ℚ) ≤ 1000 / fps := by positivity
  have hf : (0 : ℤ) ≤ ⌊(1000 : ℚ) / fps⌋ := Int.floor_nonneg.mpr hx
  have hcast : ((⌊(1000 : ℚ) / fps⌋.toNat : ℚ)) = ((⌊(1000 : ℚ) / fps⌋ : ℤ) : ℚ) := by
    exact_mod_cast congrArg (fun z : ℤ => (z : ℚ)) (Int.toNat_of_nonneg hf)
  rw [hcast]
  exact ⟨Int.floor_le _, Int.lt_floor_add_one _⟩

/-- C8: after every successful frame emission the loop paces itself before
the next pull: the event right after each `frame_ready` emission is a sleep
of `pace fps` milliseconds, which is within one millisecond below
`1000 / fps` when the source reports `fps > 0` and is the fixed fallback 15
otherwise. -/
theorem worker_pacing (slot : Nat) (src : Source) (n s : Nat) (f : Img)
    (h : (run slot src).get? n = some (.frame s f)) :
    (run slot src).get? (n + 1) = some (.sleep (pace src.fps)) ∧
    (0 < src.fps → (pace src.fps : ℚ) ≤ 1000 / src.fps ∧
      1000 / src.fps < (pace src.fps : ℚ) + 1) ∧
    (¬ 0 < src.fps → pace src.fps = 15) := by
  refine ⟨?_, fun hf => pace_pos_bounds src.fps hf, fun hf => by simp [pace, hf]⟩
  cases hs : src.opens with
  | false =>
    have hr : run slot src = [.error slot (openErrMsg src.addr)] := by
      simp [run, hs]
    rw [hr] at h
    match n with
    | 0 => simp at h
    | n + 1 => simp at h
  | true =>
    have hr : run slot src =
        pullLoop slot src.addr src.fps src.frames ++ [.release] := by
      simp [run, hs]
    rw [hr] at h ⊢
    obtain ⟨hlt, h'⟩ := get_append_singleton_ne _ _ n _ h (by simp)
    have hsl := pullLoop_frame_sleep _ _ _ _ _ _ _ h'
    have hlt' : n + 1 < (pullLoop slot src.addr src.fps src.frames).length := by
      have := List.get?_eq_some.mp hsl
      exact this.1
    rw [List.get?_append hlt']
    exact hsl

/-- Witness for C8 at a concrete source with fps = 30: the frame at index 0
is followed by a 33 ms sleep (⌊1000/30⌋ = 33). -/
theorem worker_pacing_witness :
    (run 0 (Source.mk "u" true [7] 30)).get? 0 = some (.frame 0 7) ∧
    (run 0 (Source.mk "u" true [7] 30)).get? 1 = some (.sleep 33) := by
  have h0 : (run 0 (Source.mk "u" true [7] 30)).get? 0 = some (.frame 0 7) := by
    decide
  have h := worker_pacing 0 (Source.mk "u" true [7] 30) 0 0 7 h0
  refine ⟨h0, ?_⟩
  have hp : pace (Source.mk "u" true [7] 30).fps = 33 := by
    show pace 30 = 33
    have hfl : ⌊(1000 : ℚ) / 30⌋ = 33 := by
      rw [Int.floor_eq_iff]
      norm_num
    unfold pace
    rw [if_pos (by norm_num), hfl]
    rfl
  rw [hp] at h
  exact h.1

/-- C10: the capture handle is released exactly once, and only on the path
where the pull cycle was entered (source opened); on the open-failure path
the trace ends with the error emission and contains no release at all. -/
theorem release_paths (slot : Nat) (src : Source) :
    countReleases (run slot src) = (if src.opens then 1 else 0) ∧
    (run slot src).getLast? =
      some (if src.opens then Event.release
            else Event.error slot (openErrMsg src.addr)) := by
  cases hs : src.opens with
  | false =>
    have hr : run slot src = [.error slot (openErrMsg src.addr)] := by
      simp [run, hs]
    constructor
    · simp [hr, countReleases, isRelease]
    · simp [hr]
  | true =>
    have hr : run slot src =
        pullLoop slot src.addr src.fps src.frames ++ [.release] := by
      simp [run, hs]
    constructor
    · have h1 := countReleases_pullLoop slot src.addr src.fps src.frames
      simp only [countReleases] at h1 ⊢
      rw [hr]
      simp [List.filter_append, isRelease, h1]
    · rw [hr]
      simp [List.getLast?_concat]

end WorkerClaims

/-! ## Address normalisation (`InputDialog.get_urls`, app2.py lines 108–120) -/

/-- The ASCII whitespace characters removed by Python's `str.strip()`. -/
def isPyWhitespace (c : Char) : Bool :=
  c == ' ' || c == '\t' || c == '\n' || c == '\r' || c == '\x0b' || c == '\x0c'

/-- Python's `str.strip()`: remove leading and trailing whitespace. -/
def pyStrip (s : String) : String :=
  ⟨((s.data.dropWhile isPyWhitespace).reverse.dropWhile
      isPyWhitespace).reverse⟩

/-- Python's `str.startswith(pre)`. -/
def strStartsWith (s pre : String) : Bool :=
  pre.data.isPrefixOf s.data

/-- Per-entry normalisation of `InputDialog.get_urls`: the entry text is
stripped (`edit.text().strip()`); an empty result stays empty; a stripped
entry already starting with `http://` or `rtsp://` is used as is; anything
else is treated as a bare host:port and rewritten to
`http://<host:port>/video`. -/
def process_entry (raw : String) : String :=
  if pyStrip raw = "" then ""
  else if strStartsWith (pyStrip raw) "http://"
      || strStartsWith (pyStrip raw) "rtsp://" then
    pyStrip raw
  else "http://" ++ pyStrip raw ++ "/video"

/-- `InputDialog.get_urls`: normalise the four line edits in order. -/
def get_urls (entries : List String) : List String := entries.map process_entry

/-! ## Session controller (`MainWindow`, app2.py lines 125–232) -/

/-- Content of one of the four `QLabel` display surfaces: a label shows
either text (`setText`) or a pixmap (`setPixmap` with a non-null pixmap);
`setPixmap(QPixmap())` clears it. -/
inductive LabelContent where
  | empty
  | text (s : String)
  | pix (img : Img)
  deriving DecidableEq, Repr

/-- One live `VideoWorker` as the controller tracks it in `self.workers`:
its slot index and source URL (`VideoWorker(i, url, self)`, line 188). -/
structure WorkerRef where
  camIndex : Nat
  source : String
  deriving DecidableEq, Repr

/-- The UI-thread state of `MainWindow` relevant to the verified claims:
the stored address list, the four grid labels, the worker list, the two
buttons and the status-bar message. -/
structure WindowState where
  urls : List String
  labels : List LabelContent
  workers : List WorkerRef
  btnStartEnabled : Bool
  btnStopEnabled : Bool
  statusMsg : String
  deriving DecidableEq, Repr

/-- Label text set by `stop_streams` for slot `i` (0-based). -/
def stoppedText (i : Nat) : String :=
  "Camera " ++ toString (i + 1) ++ "\n(stopped)"

/-- Label text set by `start_streams` for a slot with an empty URL. -/
def emptyUrlText (i : Nat) : String :=
  "Camera " ++ toString (i + 1) ++ "\n(empty URL)"

/-- `MainWindow.stop_streams` (app2.py lines 198–210): signal stop to every
worker and clear the worker list, reset every label (`setPixmap(QPixmap())`
then `setText(...)`, whose net effect is the text), re-enable Start, disable
Stop, and show "Stopped".  The thread-level effect of `w.stop()` is treated
in the interleaving model below; on the UI-thread state it only clears the
list. -/
def stop_streams (st : WindowState) : WindowState :=
  { st with
    workers := []
    labels := (List.range st.labels.length).map fun i =>
      LabelContent.text (stoppedText i)
    btnStartEnabled := true
    btnStopEnabled := false
    statusMsg := "Stopped" }

/-- The `for i, url in enumerate(self.urls)` loop body of `start_streams`
(app2.py lines 183–192), processing `urls` with `k` the index of the first
one: an empty URL only marks its label, a non-empty one appends a worker for
that slot. -/
def startLoop (k : Nat) (urls : List String) (st : WindowState) : WindowState :=
  match urls with
  | [] => st
  | url :: rest =>
    if url = "" then
      startLoop (k + 1) rest
        { st with labels := st.labels.set k (.text (emptyUrlText k)) }
    else
      startLoop (k + 1) rest { st with workers := st.workers ++ [⟨k, url⟩] }

/-- `MainWindow.start_streams` (app2.py lines 180–196): first
`self.stop_streams()`, then the loop over `enumerate(self.urls)`, then flip
the buttons and show "Streaming...". -/
def start_streams (st : WindowState) : WindowState :=
  let st1 := stop_streams st
  let st2 := startLoop 0 st1.urls st1
  { st2 with
    btnStartEnabled := false
    btnStopEnabled := true
    statusMsg := "Streaming..." }

/-- `MainWindow.on_frame_ready` (app2.py lines 214–224): if the slot index
is within the label list, replace that label's content by the pixmap of the
delivered image; otherwise do nothing.  Slot indices arriving through the
signal are modelled as integers so that out-of-range values on either side
are representable.  Scaling is delegated to Qt and does not change which
frame is shown, so the pixmap is modelled by the frame token itself. -/
def on_frame_ready (camIndex : Int) (img : Img) (st : WindowState) :
    WindowState :=
  if 0 ≤ camIndex ∧ camIndex < (st.labels.length : Int) then
    { st with labels := st.labels.set camIndex.toNat (.pix img) }
  else st

/-- `MainWindow.on_worker_error` (app2.py lines 226–232): if the slot index
is within the label list, clear that label's pixmap and set its error text;
in every case — the `if` body ends before line 231 — show the message on the
status bar (the `print` on line 232 is console output, not UI state). -/
def on_worker_error (camIndex : Int) (msg : String) (st : WindowState) :
    WindowState :=
  let st1 :=
    if 0 ≤ camIndex ∧ camIndex < (st.labels.length : Int) then
      { st with labels :=
          (st.labels.set camIndex.toNat
            (.text ("Camera " ++ toString (camIndex + 1) ++ "\nError"))) }
    else st
  { st1 with statusMsg := msg }

lemma le_fst_of_mem_enumFrom {p : Nat × String} (l : List String) (n : Nat)
    (h : p ∈ l.enumFrom n) : n ≤ p.1 := by
  induction l generalizing n with
  | nil => simp [List.enumFrom] at h
  | cons a l ih =>
    simp only [List.enumFrom, List.mem_cons] at h
    rcases h with h | h
    · rw [h]
    · have := ih (n + 1) h
      omega

lemma enumFrom_filter_at (urls : List String) (k i : Nat) (u : String)
    (h : urls.get? i = some u) :
    ((urls.enumFrom k).filter fun p => p.1 = k + i ∧ p.2 ≠ "").length =
      if u = "" then 0 else 1 := by
  induction urls generalizing k i with
  | nil => simp at h
  | cons url rest ih =>
    match i with
    | 0 =>
      simp only [List.get?_cons_zero, Option.some.injEq] at h
      subst h
      by_cases hu : url = "" <;>
      · simp [List.enumFrom, List.filter_cons, hu, Nat.add_zero]
        intro a b hp h1
        have h2 : k + 1 ≤ a := le_fst_of_mem_enumFrom rest (k + 1) hp
        exact absurd h1 (by omega)
    | i + 1 =>
      simp only [List.get?_cons_succ] at h
      have hrec := ih (k + 1) i h
      have harith : k + (i + 1) = (k + 1) + i := by omega
      simp only [List.enumFrom, List.filter_cons, harith]
      rw [if_neg (by simp; omega)]
      exact hrec

lemma startLoop_workers (urls : List String) (k : Nat) (st : WindowState) :
    (startLoop k urls st).workers =
      st.workers ++
        (((urls.enumFrom k).filter fun p => p.2 ≠ "").map
          fun p => WorkerRef.mk p.1 p.2) := by
  induction urls generalizing k st with
  | nil => simp [startLoop, List.enumFrom]
  | cons url rest ih =>
    by_cases hu : url = ""
    · simp only [startLoop, if_pos hu]
      rw [ih]
      simp [List.enumFrom, List.filter_cons, hu]
    · simp only [startLoop, if_neg hu]
      rw [ih]
      simp [List.enumFrom, List.filter_cons, hu, List.append_assoc]

lemma startLoop_count (i : Nat) (urls : List String) (k : Nat)
    (st : WindowState) :
    ((startLoop k urls st).workers.filter fun w => w.camIndex = i).length =
      (st.workers.filter fun w => w.camIndex = i).length +
        ((urls.enumFrom k).filter fun p => p.1 = i ∧ p.2 ≠ "").length := by
  induction urls generalizing k st with
  | nil => simp [startLoop, List.enumFrom]
  | cons url rest ih =>
    by_cases hu : url = ""
    · simp only [startLoop, if_pos hu]
      rw [ih]
      simp [List.enumFrom, List.filter_cons, hu]
    · simp only [startLoop, if_neg hu]
      rw [ih]
      simp only [List.enumFrom, List.filter_cons, List.filter_append,
        List.length_append]
      by_cases hk : k = i
      · simp [hu, hk]
        omega
      · simp [hu, hk]

lemma startLoop_labels_length (urls : List String) (k : Nat)
    (st : WindowState) :
    (startLoop k urls st).labels.length = st.labels.length := by
  induction urls generalizing k st with
  | nil => rfl
  | cons url rest ih =>
    by_cases hu : url = ""
    · simp only [startLoop, if_pos hu]
      rw [ih]
      simp
    · simp only [startLoop, if_neg hu]
      exact ih _ _

lemma startLoop_labels_lt (urls : List String) (k j : Nat) (st : WindowState)
    (h : j < k) :
    (startLoop k urls st).labels.get? j = st.labels.get? j := by
  induction urls generalizing k st with
  | nil => rfl
  | cons url rest ih =>
    by_cases hu : url = ""
    · simp only [startLoop, if_pos hu]
      rw [ih _ _ (by omega)]
      exact List.get?_set_ne _ st.labels (by omega)
    · simp only [startLoop, if_neg hu]
      exact ih _ _ (by omega)

lemma startLoop_label_empty (urls : List String) (k j : Nat)
    (st : WindowState) (hj : urls.get? j = some "")
    (hlen : k + j < st.labels.length) :
    (startLoop k urls st).labels.get? (k + j) =
      some (.text (emptyUrlText (k + j))) := by
  induction urls generalizing k st j with
  | nil => simp at hj
  | cons url rest ih =>
    match j with
    | 0 =>
      simp only [List.get?_cons_zero, Option.some.injEq] at hj
      simp only [startLoop, if_pos hj, Nat.add_zero] at hlen ⊢
      rw [startLoop_labels_lt rest (k + 1) k _ (by omega)]
      exact List.get?_set_eq_of_lt _ (by omega)
    | j + 1 =>
      simp only [List.get?_cons_succ] at hj
      have harith : k + (j + 1) = (k + 1) + j := by omega
      by_cases hu : url = ""
      · simp only [startLoop, if_pos hu, harith]
        exact ih (k + 1) j _ hj (by simp only [List.length_set]; omega)
      · simp only [startLoop, if_neg hu, harith]
        exact ih (k + 1) j _ hj
          (by show (k + 1) + j < st.labels.length; omega)

lemma stop_streams_idem (st : WindowState) :
    stop_streams (stop_streams st) = stop_streams st := by
  simp [stop_streams]

/-- Shared helper: per-slot worker count after `start_streams`. -/
lemma start_streams_count (st : WindowState) (i : Nat) (u : String)
    (h : st.urls.get? i = some u) :
    ((start_streams st).workers.filter fun w => w.camIndex = i).length =
      if u = "" then 0 else 1 := by
  have h1 := startLoop_count i st.urls 0 (stop_streams st)
  have h2 := enumFrom_filter_at st.urls 0 i u h
  simp only [Nat.zero_add] at h2
  have hw : (start_streams st).workers =
      (startLoop 0 st.urls (stop_streams st)).workers := rfl
  rw [hw, h1]
  simp only [stop_streams, List.filter_nil, List.length_nil, Nat.zero_add]
  exact h2

lemma process_entry_empty (t : String) (ht : pyStrip t = "") :
    process_entry t = "" := by
  simp [process_entry, ht]

lemma process_entry_scheme (t : String)
    (hs : (strStartsWith (pyStrip t) "http://"
      || strStartsWith (pyStrip t) "rtsp://") = true) :
    process_entry t = pyStrip t := by
  have ht : ¬pyStrip t = "" := by
    intro h0
    rw [h0] at hs
    exact absurd hs (by decide)
  simp only [process_entry]
  rw [if_neg ht, if_pos hs]

lemma process_entry_bare (t : String) (ht : pyStrip t ≠ "")
    (hs : (strStartsWith (pyStrip t) "http://"
      || strStartsWith (pyStrip t) "rtsp://") = false) :
    process_entry t = "http://" ++ pyStrip t ++ "/video" := by
  simp only [process_entry]
  rw [if_neg ht, if_neg (by simp [hs])]

section ControllerClaims

/-- C6: `start_streams` first performs a full `stop_streams` (so starting
from the already-stopped state yields the same result), then creates
exactly one worker per non-empty slot — bound to that slot's index — and no
worker for an empty slot, whose label is marked "(empty URL)". -/
theorem start_session_loops (st : WindowState)
    (h4 : st.urls.length = 4) (hl : st.labels.length = 4) :
    start_streams st = start_streams (stop_streams st) ∧
    (start_streams st).workers =
      ((st.urls.enum.filter fun p => p.2 ≠ "").map
        fun p => WorkerRef.mk p.1 p.2) ∧
    (∀ i u, st.urls.get? i = some u →
      ((start_streams st).workers.filter fun w => w.camIndex = i).length =
        if u = "" then 0 else 1) ∧
    (∀ i, st.urls.get? i = some "" →
      (start_streams st).labels.get? i =
        some (.text (emptyUrlText i))) := by
  refine ⟨?_, ?_, fun i u h => start_streams_count st i u h, ?_⟩
  · simp [start_streams, stop_streams_idem]
  · have hw := startLoop_workers st.urls 0 (stop_streams st)
    have heq : (start_streams st).workers =
        (startLoop 0 st.urls (stop_streams st)).workers := rfl
    rw [heq, hw]
    simp [stop_streams, List.enum]
  · intro i h
    have hi : i < st.urls.length := (List.get?_eq_some.mp h).1
    have hlen : 0 + i < (stop_streams st).labels.length := by
      simp [stop_streams]
      omega
    have hle := startLoop_label_empty st.urls 0 i (stop_streams st) h hlen
    have heq : (start_streams st).labels =
        (startLoop 0 st.urls (stop_streams st)).labels := rfl
    rw [heq]
    simpa using hle

/-- Witness for C6: the spec scenario — addresses
["http://h1/video", "", "rtsp://h3/stream", ""] yield exactly the two
workers for slots 0 and 2, and slot 1 is marked "(empty URL)". -/
theorem start_session_loops_witness :
    (WindowState.mk ["http://h1/video", "", "rtsp://h3/stream", ""]
      [.text "a", .text "b", .text "c", .text "d"] [] true false
      "Ready").urls.length = 4 ∧
    (WindowState.mk ["http://h1/video", "", "rtsp://h3/stream", ""]
      [.text "a", .text "b", .text "c", .text "d"] [] true false
      "Ready").labels.length = 4 ∧
    (start_streams (WindowState.mk
      ["http://h1/video", "", "rtsp://h3/stream", ""]
      [.text "a", .text "b", .text "c", .text "d"] [] true false
      "Ready")).workers =
      [WorkerRef.mk 0 "http://h1/video", WorkerRef.mk 2 "rtsp://h3/stream"] ∧
    (start_streams (WindowState.mk
      ["http://h1/video", "", "rtsp://h3/stream", ""]
      [.text "a", .text "b", .text "c", .text "d"] [] true false
      "Ready")).labels.get? 1 = some (.text (emptyUrlText 1)) := by
  have h := start_session_loops (WindowState.mk
    ["http://h1/video", "", "rtsp://h3/stream", ""]
    [.text "a", .text "b", .text "c", .text "d"] [] true false
    "Ready") rfl rfl
  refine ⟨rfl, rfl, ?_, h.2.2.2 1 rfl⟩
  rw [h.2.1]
  decide

/-- C7: `stop_streams` is idempotent on the UI state — a second call leaves
the controller and every label exactly as after the first — and after it no
worker is tracked (calling it with nothing running is a no-op on an already
stopped state). -/
theorem stop_session_idempotent (st : WindowState) :
    stop_streams (stop_streams st) = stop_streams st ∧
    (stop_streams st).workers = [] ∧
    (stop_streams st).statusMsg = "Stopped" :=
  ⟨stop_streams_idem st, rfl, rfl⟩

/-- A concrete window state used to exhibit the routing behaviour. -/
def demoState : WindowState :=
  { urls := ["a", "", "", ""]
    labels := [.text "L1", .text "L2", .text "L3", .text "L4"]
    workers := []
    btnStartEnabled := true
    btnStopEnabled := false
    statusMsg := "Ready" }

/-- C3 counterexample: a StreamError arriving with out-of-range slot index 7
is *not* discarded entirely — no label changes, but the status bar (UI state
outside any Display Surface) is still updated with the message, because the
range guard in `on_worker_error` ends before the `showMessage` call. -/
theorem routing_discard_counterexample :
    ¬(0 ≤ (7 : Int) ∧ (7 : Int) < (demoState.labels.length : Int)) ∧
    on_worker_error 7 "boom" demoState ≠ demoState ∧
    (on_worker_error 7 "boom" demoState).statusMsg = "boom" ∧
    demoState.statusMsg = "Ready" ∧
    (on_worker_error 7 "boom" demoState).labels = demoState.labels := by
  decide

/-- C3 amended: a Frame with an out-of-range slot index is discarded
entirely (the window state is unchanged); a StreamError with an
out-of-range slot index modifies no Display Surface and nothing else except
the status-bar message, which is always set to the error text. -/
theorem routing_out_of_range (camIndex : Int) (img : Img) (msg : String)
    (st : WindowState)
    (h : ¬(0 ≤ camIndex ∧ camIndex < (st.labels.length : Int))) :
    on_frame_ready camIndex img st = st ∧
    on_worker_error camIndex msg st = { st with statusMsg := msg } := by
  constructor
  · simp [on_frame_ready, h]
  · simp [on_worker_error, h]

/-- Witness for the amended C3 at slot index -1 on a concrete state. -/
theorem routing_out_of_range_witness :
    ¬(0 ≤ (-1 : Int) ∧ (-1 : Int) < (demoState.labels.length : Int)) ∧
    on_frame_ready (-1) 9 demoState = demoState ∧
    on_worker_error (-1) "m" demoState =
      { demoState with statusMsg := "m" } := by
  have h := routing_out_of_range (-1) 9 "m" demoState (by decide)
  exact ⟨by decide, h.1, h.2⟩

/-- C4 counterexample: the non-empty entry "http://a " (note the trailing
space) begins with the recognized scheme `http://`, yet it is not passed
through verbatim — `get_urls` strips it first. -/
theorem url_verbatim_counterexample :
    strStartsWith "http://a " "http://" = true ∧
    process_entry "http://a " ≠ "http://a " ∧
    process_entry "http://a " = "http://a" := by
  decide

/-- C4 amended: each non-empty entry is first stripped of surrounding
whitespace; if the stripped text begins with `http://` or `rtsp://` it is
used as is, if it is empty the entry yields the empty URL, and otherwise it
is treated as a bare host:port and rewritten to exactly
`http://<host:port>/video`; in particular "10.0.0.5:8080" becomes
"http://10.0.0.5:8080/video". -/
theorem url_rewrite_amended (s : String) (_h : s ≠ "") :
    (pyStrip s = "" → process_entry s = "") ∧
    ((strStartsWith (pyStrip s) "http://"
        || strStartsWith (pyStrip s) "rtsp://") = true →
      process_entry s = pyStrip s) ∧
    (pyStrip s ≠ "" →
      (strStartsWith (pyStrip s) "http://"
        || strStartsWith (pyStrip s) "rtsp://") = false →
      process_entry s = "http://" ++ pyStrip s ++ "/video") ∧
    process_entry "10.0.0.5:8080" = "http://10.0.0.5:8080/video" :=
  ⟨process_entry_empty s, process_entry_scheme s,
    process_entry_bare s, by decide⟩

/-- Witness for the amended C4 at the spec's example entry. -/
theorem url_rewrite_amended_witness :
    ("10.0.0.5:8080" : String) ≠ "" ∧
    process_entry "10.0.0.5:8080" = "http://10.0.0.5:8080/video" := by
  have h := url_rewrite_amended "10.0.0.5:8080" (by decide)
  exact ⟨by decide, h.2.2.2⟩

/-- C9: entries are stripped before classification — a whitespace-only
entry yields the empty URL exactly like an empty entry does, its slot gets
no worker from `start_streams`, and the scheme check and the rewriting
apply to the stripped text. -/
theorem entries_stripped (s : String) (h : pyStrip s = "") :
    process_entry s = "" ∧
    process_entry s = process_entry "" ∧
    (∀ t : String,
      (strStartsWith (pyStrip t) "http://"
        || strStartsWith (pyStrip t) "rtsp://") = true →
      process_entry t = pyStrip t) ∧
    (∀ t : String, pyStrip t ≠ "" →
      (strStartsWith (pyStrip t) "http://"
        || strStartsWith (pyStrip t) "rtsp://") = false →
      process_entry t = "http://" ++ pyStrip t ++ "/video") ∧
    (∀ st i, st.urls.get? i = some (process_entry s) →
      ((start_streams st).workers.filter fun w => w.camIndex = i).length
        = 0) := by
  have hpe : process_entry s = "" := process_entry_empty s h
  refine ⟨hpe, by rw [hpe]; decide, process_entry_scheme,
    process_entry_bare, ?_⟩
  intro st i hi
  rw [hpe] at hi
  have hc := start_streams_count st i "" hi
  simpa using hc

/-- Witness for C9 at the whitespace-only entry "   ". -/
theorem entries_stripped_witness :
    pyStrip "   " = "" ∧ process_entry "   " = "" := by
  have h := entries_stripped "   " (by decide)
  exact ⟨by decide, h.1⟩

end ControllerClaims

/-! ## Stop request racing a running worker
(`VideoWorker.stop`, app2.py lines 65–67) -/

/-- Program counter of a `VideoWorker` thread whose source opened, at the
granularity relevant to stop requests: the `while self._running` check with
`i` frames already read; the body of iteration `i` — from `cap.read()` up to
and including the emission and the pacing sleep, during which `_running` is
never consulted; the final `release()`; and thread termination. -/
inductive WPC where
  | atCheck (i : Nat)
  | inBody (i : Nat)
  | releasing
  | finished
  deriving DecidableEq, Repr

/-- Progress of a `VideoWorker.stop()` call: not yet invoked; `_running`
cleared (line 66); returned from `self.wait(500)` (line 67) — either because
the thread finished, or because the 500 ms bound elapsed first. -/
inductive StopPC where
  | idle
  | flagCleared
  | returned
  deriving DecidableEq, Repr

/-- Joint state of one opened worker thread and one stop request racing it:
the worker's program counter, the shared `_running` flag, and the stop
call's progress. -/
structure CState where
  wpc : WPC
  running : Bool
  stop : StopPC
  deriving DecidableEq, Repr

/-- Observable part of one step: a `frame_ready` emission, an `error`
emission, or an internal action. -/
inductive Ev where
  | emitFrame (i : Nat)
  | emitError
  | tau
  deriving DecidableEq, Repr

/-- Interleaving semantics of one opened worker racing one stop request.
Worker steps: the loop-condition check routes on `_running`; a body whose
`read()` succeeds emits the frame and returns to the check; a body whose
`read()` fails emits the error and goes on to the release; releasing
terminates the thread.  Stop steps: `stop()` first clears `_running`, then
`wait(500)` returns — immediately once the thread is finished, or after the
500 ms bound elapses with the thread still running (for instance blocked
inside `read()` on a slow network source; the timeout result is ignored by
`stop()`). -/
inductive step (src : Source) : CState → Ev → CState → Prop where
  | checkTrue (i s) :
      step src ⟨.atCheck i, true, s⟩ .tau ⟨.inBody i, true, s⟩
  | checkFalse (i s) :
      step src ⟨.atCheck i, false, s⟩ .tau ⟨.releasing, false, s⟩
  | readOk (i r s) (h : i < src.frames.length) :
      step src ⟨.inBody i, r, s⟩ (.emitFrame i) ⟨.atCheck (i + 1), r, s⟩
  | readFail (i r s) (h : src.frames.length ≤ i) :
      step src ⟨.inBody i, r, s⟩ .emitError ⟨.releasing, r, s⟩
  | releaseDone (r s) :
      step src ⟨.releasing, r, s⟩ .tau ⟨.finished, r, s⟩
  | stopClearFlag (w r) :
      step src ⟨w, r, .idle⟩ .tau ⟨w, false, .flagCleared⟩
  | stopWaitReturn (w r) :
      step src ⟨w, r, .flagCleared⟩ .tau ⟨w, r, .returned⟩

/-- Finite executions of the interleaving semantics, with their event
list. -/
inductive Steps (src : Source) : CState → List Ev → CState → Prop where
  | nil (s) : Steps src s [] s
  | cons {s e s' evs s''} : step src s e s' → Steps src s' evs s'' →
      Steps src s (e :: evs) s''

/-- A worker state from which no emission can ever occur again: the loop has
observed the cleared flag at its condition check, is releasing, or has
terminated. -/
def QuietB (s : CState) : Bool :=
  match s.wpc with
  | .atCheck _ => !s.running
  | .inBody _ => false
  | .releasing => true
  | .finished => true

lemma step_quiet {src : Source} {s : CState} {e : Ev} {s' : CState}
    (hs : step src s e s') (hq : QuietB s = true) :
    e = .tau ∧ QuietB s' = true := by
  cases hs with
  | stopClearFlag w r =>
    refine ⟨rfl, ?_⟩
    cases w <;> simp_all [QuietB]
  | stopWaitReturn w r =>
    refine ⟨rfl, ?_⟩
    cases w <;> simp_all [QuietB]
  | _ => simp_all [QuietB]

section StopClaims

/-- C2 counterexample: with a source whose reads block arbitrarily long but
succeed, this execution of the code is possible: the worker passes the
`while self._running` check and enters `cap.read()`; `stop()` clears the
flag; `wait(500)` elapses with the read still blocked and `stop()` — hence
`stop_streams`, whose remaining statements are UI-thread-local — returns;
the worker's read then completes and it emits one more Frame.  The signal
connections are never disconnected, so that delivery still updates the
Display Surface of slot 0. -/
theorem stale_emission_counterexample :
    Steps (Source.mk "u" true [5] 30) ⟨.atCheck 0, true, .idle⟩
      [.tau, .tau, .tau] ⟨.inBody 0, false, .returned⟩ ∧
    step (Source.mk "u" true [5] 30) ⟨.inBody 0, false, .returned⟩
      (.emitFrame 0) ⟨.atCheck 1, false, .returned⟩ ∧
    on_frame_ready 0 5 demoState ≠ demoState := by
  refine ⟨?_, step.readOk 0 false .returned (by decide), by decide⟩
  exact Steps.cons (step.checkTrue 0 .idle)
    (Steps.cons (step.stopClearFlag (.inBody 0) true)
      (Steps.cons (step.stopWaitReturn (.inBody 0) false)
        (Steps.nil _)))

/-- C2 amended: a loop that has terminated — and, more generally, one that
has observed the stop request at its loop-condition check — never emits
anything afterwards.  The dropped part of the claim is refuted by the
counterexample: because `wait(500)` is a bounded wait whose timeout is
ignored and the signal connections are never removed, a loop still inside
`read()` when `stopSession` returns can deliver one more Frame or
StreamError to its Display Surface. -/
theorem no_emission_after_quiet (src : Source) :
    ∀ (evs : List Ev) (s s' : CState), Steps src s evs s' →
      QuietB s = true → ∀ e ∈ evs, e = Ev.tau := by
  intro evs
  induction evs with
  | nil =>
    intro s s' _ _ e he
    simp at he
  | cons e0 rest ih =>
    intro s s' hsteps hq e he
    cases hsteps with
    | cons h1 h2 =>
      obtain ⟨he0, hq2⟩ := step_quiet h1 hq
      rw [List.mem_cons] at he
      rcases he with he | he
      · rw [he, he0]
      · exact ih _ _ h2 hq2 e he

/-- Witness for the amended C2: a concrete quiet execution — the worker
observes the cleared flag, releases and finishes — emits nothing. -/
theorem no_emission_after_quiet_witness :
    Steps (Source.mk "u" true [] 30) ⟨.atCheck 5, false, .idle⟩
      [.tau, .tau] ⟨.finished, false, .idle⟩ ∧
    QuietB ⟨.atCheck 5, false, .idle⟩ = true ∧
    (∀ e ∈ ([Ev.tau, Ev.tau] : List Ev), e = Ev.tau) := by
  have hst : Steps (Source.mk "u" true [] 30) ⟨.atCheck 5, false, .idle⟩
      [.tau, .tau] ⟨.finished, false, .idle⟩ :=
    Steps.cons (step.checkFalse 5 .idle)
      (Steps.cons (step.releaseDone false .idle) (Steps.nil _))
  exact ⟨hst, by decide,
    no_emission_after_quiet (Source.mk "u" true [] 30) [Ev.tau, Ev.tau]
      ⟨.atCheck 5, false, .idle⟩ ⟨.finished, false, .idle⟩ hst (by decide)⟩

end StopClaims

end TennisAI
